import Mathlib

/-!
Shallow embedding of the SPiRiT protocol core (`src/spirit.rs`).

The external cryptographic collaborators (pairing-group arithmetic, the
Pedersen `Proof2PK` proof system, and the threshold anonymous-credential
scheme `tACT`) are out of scope of the protocol core and are treated, as the
design document prescribes, as synchronous, possibly-failing *pure functions*
over immutable inputs.  They are therefore modelled as explicit oracle
structures (`GroupOps`, `Proof2PKOps`, `TactOracle`) whose fields mirror the
external calls the Rust code makes; the opaque carrier types (`Scalar`,
`G1G2`, blind requests, …) are modelled as natural numbers so that every
definition stays executable and decidable.

Rust collections are modelled as follows: `HashSet<T>` as `Finset T`
(`insert` is a no-op on a present element, exactly like `HashSet::insert`),
`HashMap<K, V>` as `Finmap` (`Finmap.insert` replaces an existing binding,
exactly like `HashMap::insert`).  A `&mut` parameter together with the
returned clone is modelled by returning the final state of the collection.
-/

/-- Scalar field element (`bls381_helpers::Scalar`); opaque carrier. -/
abbrev Scalar := ℕ

/-- Pairing-group element (`bls381_helpers::G1G2`); opaque carrier. -/
abbrev G1G2 := ℕ

/-- Field alias from the source: `type Fp = Scalar`. -/
abbrev Fp := Scalar

/-- Pedersen commitment (`pedersen::Commitment`); a tuple struct whose field
`0` (here `val`) is the committed group value passed to `zk_verify`. -/
structure Commitment where
  val : G1G2
deriving DecidableEq

/-- Signature component of a token (`tsw::Signature`); a tuple struct whose
field `0` (here `val`) is passed to `zk_proof`. -/
structure Signature where
  val : ℕ
deriving DecidableEq

/-- The public anonymous credential: `type Token = (Commitment, Signature)`. -/
abbrev Token := Commitment × Signature

/-- Pseudonym for one (user, epoch) pair: `type ElID = G1G2`. -/
abbrev ElID := G1G2

/-- Per-user registration state returned by `tACT::register`. -/
abbrev Strg := ℕ

/-- Blind request produced by `tACT::token_request`. -/
abbrev BlindRequest := ℕ

/-- Blinding randomizer produced by `tACT::token_request`. -/
abbrev RandBlind := ℕ

/-- One issuer's blind token share returned by `tACT::tissue`. -/
abbrev BlindToken := ℕ

/-- Proof object returned by `tACT::prove`. -/
abbrev TokenProof := ℕ

/-- An issuer of the threshold credential scheme; opaque carrier. -/
abbrev Issuer := ℕ

/-- Aggregated tACT token; the protocol core only reads its signature
component `s` (the Rust code uses `token.s`). -/
structure TactToken where
  s : Signature
deriving DecidableEq

/-- The slice of `tACT::PublicParameters` the protocol core reads: the
threshold `pp.t`.  Everything else is forwarded opaquely to the oracles. -/
structure PublicParameters where
  t : ℕ
deriving DecidableEq

/-- Pairing-group operations used by the PRF: the domain-separated
hash-to-group and scalar multiplication.  Deterministic by the interface
contract of the group library. -/
structure GroupOps where
  hash_with_domain_separation : List ℕ → List ℕ → G1G2
  smul : G1G2 → Scalar → G1G2

/-- Little-endian byte encoding of a `usize` (`i.to_le_bytes()`). -/
def toLeBytes8 (n : ℕ) : List ℕ :=
  (List.range 8).map fun j => n / 256 ^ j % 256

/-- ASCII bytes of the domain tag `"PRF-domain"`. -/
def prfDomain : List ℕ := [80, 82, 70, 45, 100, 111, 109, 97, 105, 110]

/-- NPR PRF `H(i)^k` from the source:
`hash_with_domain_separation(&i.to_le_bytes(), b"PRF-domain") * k`. -/
def prf (ops : GroupOps) (k : Scalar) (i : ℕ) : G1G2 :=
  let hashed_i := ops.hash_with_domain_separation (toLeBytes8 i) prfDomain
  ops.smul hashed_i k

/-- The Pedersen two-statement proof-of-knowledge primitive (`Proof2PK`).
The source declares the proof object with type `Scalar`, which we mirror. -/
structure Proof2PKOps where
  zk_proof : G1G2 → ℕ → ElID → Scalar
  zk_verify : G1G2 → Scalar → Bool

/-- The threshold anonymous-credential primitive (`tACT`), one field per
external call `spirit_register` makes.  `verify` returns `true` for `Ok`
and `false` for `Err`. -/
structure TactOracle where
  register : Scalar → PublicParameters → Option (Strg × Commitment)
  token_request : Strg → Commitment → PublicParameters → Option (BlindRequest × RandBlind)
  tissue : BlindRequest → Issuer → PublicParameters → Option BlindToken
  aggregate_unblind : List BlindToken → RandBlind → PublicParameters → TactToken
  prove : TactToken → RandBlind → PublicParameters → TokenProof
  verify : TactToken → TokenProof → BlindRequest → PublicParameters → Bool

/-- The issuer loop of `spirit_register`: one `tissue` call per issuer in
order, collecting the blind tokens, aborting with `none` on the first
failure (the `.ok()?` in the loop body). -/
def tissueAll (O : TactOracle) (blind_request : BlindRequest) (pp : PublicParameters) :
    List Issuer → Option (List BlindToken)
  | [] => some []
  | issuer :: rest =>
    match O.tissue blind_request issuer pp with
    | none => none
    | some blind_token =>
      match tissueAll O blind_request pp rest with
      | none => none
      | some blind_tokens => some (blind_token :: blind_tokens)

/-- Embedding of `spirit_register`.  The first component of the result is
the Rust return value; the second is the final state of the `&mut t_rgstr`
registry (unchanged on every `None` path, since the single `insert` happens
after all fallible steps). -/
def spirit_register (O : TactOracle) (id_u : Scalar) (issuers : List Issuer)
    (pp : PublicParameters) (t_rgstr : Finset Token) :
    Option (Token × Scalar × Finset Token) × Finset Token :=
  match O.register id_u pp with
  | none => (none, t_rgstr)
  | some (strg, cm) =>
    match O.token_request strg cm pp with
    | none => (none, t_rgstr)
    | some (blind_request, rand) =>
      match tissueAll O blind_request pp (issuers.take pp.t) with
      | none => (none, t_rgstr)
      | some blind_tokens =>
        let token := O.aggregate_unblind blind_tokens rand pp
        let token_proof := O.prove token rand pp
        if O.verify token token_proof blind_request pp then
          let final_token : Token := (cm, token.s)
          let t' := insert final_token t_rgstr
          (some (final_token, id_u, t'), t')
        else (none, t_rgstr)

/-- The per-user exposure table `t_el : HashMap<ElID, Scalar>`. -/
abbrev ExposureTable := Finmap fun _ : ElID => Scalar

/-- Embedding of `spirit_broadcast`.  The fresh random salt `es_i` is an
explicit input (randomness is injected); the result is the final state of
the `&mut t_el` table, which the Rust code also returns as a clone. -/
def spirit_broadcast (ops : GroupOps) (i : ℕ) (prv : Scalar) (es_i : Scalar)
    (t_el : ExposureTable) : ExposureTable :=
  let el_id := prf ops prv i
  t_el.insert el_id es_i

/-- Embedding of `spirit_diagnosis`.  The source computes the pseudonym
vector `tr` from `cp` but never uses it; the `el_id` it then passes to
`zk_proof` and packages into the report is a variable with no binding in the
function (the Rust does not name-resolve as written), so it is modelled as
an explicit input parameter. -/
def spirit_diagnosis (ops : GroupOps) (P : Proof2PKOps) (ppu : Token × Scalar)
    (prv : Scalar) (cp : Finset ℕ) (el_id : ElID) :
    Option ((Token × Scalar) × Scalar × ElID) :=
  let (token, _id_u) := ppu
  let (cmk, token_sig) := token
  let tr : Finset ElID := cp.image (prf ops prv)
  let pi_r := P.zk_proof cmk.val token_sig.val el_id
  some (ppu, pi_r, el_id)

/-- Embedding of `spirit_verify`.  The source's destructuring of the report
is ill-typed as written (it peels one tuple layer too many); the embedding
follows the evident well-typed reading matching the report built by
`spirit_diagnosis`: `((token, id_u), pi_r, el_id)` with
`token = (cmk, token_sig)`.  The result pairs the final confirmed set (also
the final state of `&mut cp`) with the accept bit. -/
def spirit_verify (P : Proof2PKOps) (tr : (Token × Scalar) × Scalar × ElID)
    (t_rgstr : Finset Token) (cp : Finset ElID) : Finset ElID × Bool :=
  let ((token, _id_u), pi_r, el_id) := tr
  let (cmk, _token_sig) := token
  let bit : ℕ := if token ∈ t_rgstr ∧ P.zk_verify cmk.val pi_r = true then 1 else 0
  let cp' := if bit = 1 ∧ el_id ∈ cp then insert el_id cp else cp.erase el_id
  (cp', decide (bit = 1))

/-- Embedding of `spirit_trace`: count the confirmed ElIDs that are keys of
the caller's exposure table, compare against the exposure limit.  Pure. -/
def spirit_trace (cf : Finset ElID) (t_el : ExposureTable) (exposure_limit : ℕ) :
    ℕ × Bool :=
  let int_cnt := (cf.filter fun el_id => el_id ∈ t_el).card
  let alarm_bit := decide (exposure_limit ≤ int_cnt)
  (int_cnt, alarm_bit)

/-! Concrete oracle instances used to evaluate the embedding on explicit
inputs. -/

/-- Concrete group operations: hash to the first byte, multiply by adding.
`prf opsId k i = i % 256 + k`. -/
def opsId : GroupOps :=
  { hash_with_domain_separation := fun bytes _ => bytes.headD 0
    smul := fun g k => g + k }

/-- Concrete proof system whose verifier always accepts. -/
def pZkTrue : Proof2PKOps :=
  { zk_proof := fun _ _ _ => 0
    zk_verify := fun _ _ => true }

/-- Concrete proof system whose verifier always rejects. -/
def pZkFalse : Proof2PKOps :=
  { zk_proof := fun _ _ _ => 0
    zk_verify := fun _ _ => false }

/-- A concrete token used in verification scenarios. -/
def tok0 : Token := (⟨0⟩, ⟨0⟩)

/-- Concrete tACT oracle on which every call succeeds: the commitment echoes
the identity, every issuer share is `7`, aggregation yields signature `⟨1⟩`,
self-verification passes. -/
def oAll : TactOracle :=
  { register := fun idu _ => some (0, ⟨idu⟩)
    token_request := fun _ _ _ => some (0, 0)
    tissue := fun _ _ _ => some 7
    aggregate_unblind := fun _ _ _ => ⟨⟨1⟩⟩
    prove := fun _ _ _ => 0
    verify := fun _ _ _ _ => true }

/-! Helper lemmas about the issuer loop and the registration control flow. -/

/-- The issuer loop yields exactly one blind token per issuer it consulted. -/
lemma tissueAll_length (O : TactOracle) (br : BlindRequest) (pp : PublicParameters)
    (l : List Issuer) :
    ∀ bts, tissueAll O br pp l = some bts → bts.length = l.length := by
  induction l with
  | nil =>
    intro bts h
    simp only [tissueAll, Option.some.injEq] at h
    simp [← h]
  | cons a rest ih =>
    intro bts h
    simp only [tissueAll] at h
    cases ht : O.tissue br a pp with
    | none => rw [ht] at h; exact absurd h (by simp)
    | some bt =>
      rw [ht] at h
      cases hr : tissueAll O br pp rest with
      | none => rw [hr] at h; exact absurd h (by simp)
      | some bts' =>
        rw [hr] at h
        simp only [Option.some.injEq] at h
        subst h
        simp [ih bts' hr]

/-- If any consulted issuer fails, the issuer loop fails. -/
lemma tissueAll_eq_none (O : TactOracle) (br : BlindRequest) (pp : PublicParameters)
    (l : List Issuer) (issuer : Issuer) (hmem : issuer ∈ l)
    (hfail : O.tissue br issuer pp = none) :
    tissueAll O br pp l = none := by
  induction l with
  | nil => exact absurd hmem (List.not_mem_nil _)
  | cons a rest ih =>
    simp only [tissueAll]
    rcases List.mem_cons.mp hmem with rfl | hmem'
    · rw [hfail]
    · cases ht : O.tissue br a pp with
      | none => rfl
      | some bt => rw [ih hmem']

/-- Control-flow shape of `spirit_register`: either it fails and returns the
registry untouched, or it succeeds and both the returned snapshot and the
final registry are the input registry with the new token inserted. -/
lemma spirit_register_shape (O : TactOracle) (id_u : Scalar) (issuers : List Issuer)
    (pp : PublicParameters) (t_rgstr : Finset Token) :
    spirit_register O id_u issuers pp t_rgstr = (none, t_rgstr)
    ∨ ∃ tok : Token, spirit_register O id_u issuers pp t_rgstr
        = (some (tok, id_u, insert tok t_rgstr), insert tok t_rgstr) := by
  rcases hr : O.register id_u pp with _ | ⟨strg, cm⟩
  · exact Or.inl (by simp [spirit_register, hr])
  · rcases ht : O.token_request strg cm pp with _ | ⟨br, rand⟩
    · exact Or.inl (by simp [spirit_register, hr, ht])
    · rcases hb : tissueAll O br pp (issuers.take pp.t) with _ | bts
      · exact Or.inl (by simp [spirit_register, hr, ht, hb])
      · by_cases hv : O.verify (O.aggregate_unblind bts rand pp)
            (O.prove (O.aggregate_unblind bts rand pp) rand pp) br pp = true
        · exact Or.inr ⟨(cm, (O.aggregate_unblind bts rand pp).s),
            by simp [spirit_register, hr, ht, hb, hv]⟩
        · exact Or.inl (by simp [spirit_register, hr, ht, hb, hv])

/-- Closed form of `spirit_verify`: the returned set inserts the disclosed
ElID when the checks pass and it was already confirmed, and erases it
otherwise; the accept bit is exactly the two checks. -/
lemma spirit_verify_eq (P : Proof2PKOps) (token : Token) (id_u pi_r : Scalar)
    (el_id : ElID) (t_rgstr : Finset Token) (cp : Finset ElID) :
    spirit_verify P ((token, id_u), pi_r, el_id) t_rgstr cp
      = (if (token ∈ t_rgstr ∧ P.zk_verify token.1.val pi_r = true) ∧ el_id ∈ cp
            then insert el_id cp else cp.erase el_id,
          decide (token ∈ t_rgstr ∧ P.zk_verify token.1.val pi_r = true)) := by
  obtain ⟨cmk, token_sig⟩ := token
  by_cases hb : ((cmk, token_sig) : Token) ∈ t_rgstr ∧ P.zk_verify cmk.val pi_r = true
  · simp [spirit_verify, hb]
  · simp [spirit_verify, hb]

/-! Claim theorems. -/

/-- C1: the claim says that a report whose token is registered and whose
proof verifies is accepted AND its disclosed ElID is a member of the
returned confirmed-exposed set, regardless of prior membership.  The code
contradicts the claim (and the stated intent of its own design, which flags
this very branch as a defect): when the disclosed ElID was not already
confirmed, the accepted report's ElID is erased instead of inserted.  At the
concrete failing input below — registered token, accepting verifier, ElID
`5` not yet confirmed — the call accepts yet returns a confirmed set not
containing `5`. -/
theorem spirit_verify_accept_drops_new_elid :
    (spirit_verify pZkTrue ((tok0, 0), 0, (5 : ElID)) {tok0} ∅).2 = true
    ∧ (5 : ElID) ∉ (spirit_verify pZkTrue ((tok0, 0), 0, (5 : ElID)) {tok0} ∅).1 := by
  decide

/-- C2: `spirit_verify` accepts iff the report's token is in the registry
and `zk_verify` accepts the proof against the token's commitment value; the
accept bit depends on no other input (the equivalence mentions neither the
confirmed set, the disclosed ElID, nor the identity scalar). -/
theorem spirit_verify_accept_iff (P : Proof2PKOps) (token : Token)
    (id_u pi_r : Scalar) (el_id : ElID) (t_rgstr : Finset Token) (cp : Finset ElID) :
    (spirit_verify P ((token, id_u), pi_r, el_id) t_rgstr cp).2 = true
      ↔ token ∈ t_rgstr ∧ P.zk_verify token.1.val pi_r = true := by
  obtain ⟨cmk, token_sig⟩ := token
  by_cases h : ((cmk, token_sig) : Token) ∈ t_rgstr ∧ P.zk_verify cmk.val pi_r = true
  · simp [spirit_verify, h]
  · simp only [spirit_verify, if_neg h]
    simpa using h

/-- C3 counterexample: the claim says a rejected report leaves every
previously-confirmed ElID in place.  At the concrete input below the
report's token is not registered, so the report is rejected, yet the
previously-confirmed ElID `5` (the report's disclosed pseudonym) has been
removed from the returned set. -/
theorem spirit_verify_reject_removes_confirmed_cex :
    (spirit_verify pZkTrue ((tok0, 0), 0, (5 : ElID)) ∅ {5}).2 = false
    ∧ (5 : ElID) ∈ ({5} : Finset ElID)
    ∧ (5 : ElID) ∉ (spirit_verify pZkTrue ((tok0, 0), 0, (5 : ElID)) ∅ {5}).1 := by
  decide

/-- C3 amended: a `spirit_verify` call removes at most the report's own
disclosed ElID: every previously-confirmed ElID other than the disclosed one
is still a member of the returned set, and on rejection the disclosed ElID
itself is absent from the returned set. -/
theorem spirit_verify_reject_preserves_others (P : Proof2PKOps) (token : Token)
    (id_u pi_r : Scalar) (el_id : ElID) (t_rgstr : Finset Token) (cp : Finset ElID)
    (x : ElID) (hx : x ∈ cp) (hne : x ≠ el_id) :
    x ∈ (spirit_verify P ((token, id_u), pi_r, el_id) t_rgstr cp).1
    ∧ ((spirit_verify P ((token, id_u), pi_r, el_id) t_rgstr cp).2 = false →
        el_id ∉ (spirit_verify P ((token, id_u), pi_r, el_id) t_rgstr cp).1) := by
  rw [spirit_verify_eq]
  constructor
  · split_ifs with hcond
    · exact Finset.mem_insert_of_mem hx
    · exact Finset.mem_erase.mpr ⟨hne, hx⟩
  · intro hrej
    simp only [decide_eq_false_iff_not] at hrej
    rw [if_neg fun hc => hrej hc.1]
    exact Finset.not_mem_erase _ _

/-- C3 witness for `spirit_verify_reject_preserves_others`. -/
theorem spirit_verify_reject_preserves_others_witness :
    (3 : ElID) ∈ ({3, 5} : Finset ElID) ∧ (3 : ElID) ≠ 5
    ∧ (3 : ElID) ∈ (spirit_verify pZkFalse ((tok0, 0), 0, (5 : ElID)) ∅ {3, 5}).1
    ∧ ((spirit_verify pZkFalse ((tok0, 0), 0, (5 : ElID)) ∅ {3, 5}).2 = false →
        (5 : ElID) ∉ (spirit_verify pZkFalse ((tok0, 0), 0, (5 : ElID)) ∅ {3, 5}).1) :=
  ⟨by decide, by decide,
    (spirit_verify_reject_preserves_others pZkFalse tok0 0 0 5 ∅ {3, 5} 3
      (by decide) (by decide)).1,
    (spirit_verify_reject_preserves_others pZkFalse tok0 0 0 5 ∅ {3, 5} 3
      (by decide) (by decide)).2⟩

/-- C4 counterexample: the claim says `spirit_register` requests partial
tokens from exactly the first `t` issuers and that a run collecting fewer
than `t` valid partial tokens never produces a credential.  The loop is
`issuers.iter().take(pp.t)`, so an issuer list shorter than `t` is silently
truncated: below, with `t = 2` and a single issuer, only one partial token
is collected (`some [7]`, length `1 < 2`), all external calls succeed, and
registration nevertheless returns a credential. -/
theorem spirit_register_under_threshold_cex :
    (spirit_register oAll 3 [10] ⟨2⟩ ∅).1 ≠ none
    ∧ tissueAll oAll 0 ⟨2⟩ (([10] : List Issuer).take 2) = some [7]
    ∧ ([7] : List BlindToken).length < 2 := by
  decide

/-- C4 amended: `spirit_register` requests one partial blind token from each
of the first `min t (length issuers)` issuers in input order — never more
than `t` — and returns `none` as soon as one of those issuer calls fails;
when the issuer list holds at least `t` issuers, any run that produces a
credential collected exactly `t` valid partial tokens. -/
theorem spirit_register_issuer_take (O : TactOracle) (id_u : Scalar)
    (issuers : List Issuer) (pp : PublicParameters) (t_rgstr : Finset Token)
    (strg : Strg) (cm : Commitment) (br : BlindRequest) (rand : RandBlind)
    (hreg : O.register id_u pp = some (strg, cm))
    (hreq : O.token_request strg cm pp = some (br, rand)) :
    (∀ bts, tissueAll O br pp (issuers.take pp.t) = some bts →
        bts.length = min pp.t issuers.length)
    ∧ ((∃ issuer ∈ issuers.take pp.t, O.tissue br issuer pp = none) →
        (spirit_register O id_u issuers pp t_rgstr).1 = none)
    ∧ (pp.t ≤ issuers.length →
        (spirit_register O id_u issuers pp t_rgstr).1 ≠ none →
        ∃ bts, tissueAll O br pp (issuers.take pp.t) = some bts ∧ bts.length = pp.t) := by
  refine ⟨?_, ?_, ?_⟩
  · intro bts h
    rw [tissueAll_length O br pp _ bts h, List.length_take]
  · intro hex
    obtain ⟨issuer, hmem, hfail⟩ := hex
    have hb : tissueAll O br pp (issuers.take pp.t) = none :=
      tissueAll_eq_none O br pp _ issuer hmem hfail
    simp [spirit_register, hreg, hreq, hb]
  · intro hlen hsome
    cases hb : tissueAll O br pp (issuers.take pp.t) with
    | none => exact absurd (by simp [spirit_register, hreg, hreq, hb]) hsome
    | some bts =>
      refine ⟨bts, rfl, ?_⟩
      rw [tissueAll_length O br pp _ bts hb, List.length_take, min_eq_left hlen]

/-- C4 witness for `spirit_register_issuer_take`. -/
theorem spirit_register_issuer_take_witness :
    oAll.register 3 ⟨2⟩ = some (0, ⟨3⟩)
    ∧ oAll.token_request 0 ⟨3⟩ ⟨2⟩ = some (0, 0)
    ∧ ((∃ issuer ∈ ([10, 20] : List Issuer).take (2 : ℕ), oAll.tissue 0 issuer ⟨2⟩ = none) →
        (spirit_register oAll 3 [10, 20] ⟨2⟩ ∅).1 = none) :=
  ⟨rfl, rfl, (spirit_register_issuer_take oAll 3 [10, 20] ⟨2⟩ ∅ 0 ⟨3⟩ 0 0 rfl rfl).2.1⟩

/-- C5 counterexample: the claim says a successful call increases registry
size by exactly one.  The registry is a `HashSet` and the one `insert` is a
no-op on a present element: below the registry already holds the very token
the (deterministic, all-succeeding) oracles produce, the call still returns
`Some`, and the registry size is unchanged. -/
theorem spirit_register_duplicate_token_cex :
    (spirit_register oAll 3 [10, 20] ⟨2⟩ {((⟨3⟩, ⟨1⟩) : Token)}).1 ≠ none
    ∧ (spirit_register oAll 3 [10, 20] ⟨2⟩ {((⟨3⟩, ⟨1⟩) : Token)}).2.card
        = ({((⟨3⟩, ⟨1⟩) : Token)} : Finset Token).card := by
  decide

/-- C5 amended: on success the returned snapshot and the final registry are
the input registry with the new token inserted — size grows by exactly one
when that token is new and the registry is unchanged when it is a duplicate;
on failure the registry is exactly as before; the input registry is always a
subset of the final one, so size is non-decreasing across any sequence of
calls, and grows by at most one per call. -/
theorem spirit_register_registry_effect (O : TactOracle) (id_u : Scalar)
    (issuers : List Issuer) (pp : PublicParameters) (t_rgstr : Finset Token) :
    (∀ tok iu rg', (spirit_register O id_u issuers pp t_rgstr).1 = some (tok, iu, rg') →
        rg' = insert tok t_rgstr
        ∧ (spirit_register O id_u issuers pp t_rgstr).2 = insert tok t_rgstr
        ∧ (tok ∉ t_rgstr → rg'.card = t_rgstr.card + 1)
        ∧ (tok ∈ t_rgstr → rg' = t_rgstr))
    ∧ ((spirit_register O id_u issuers pp t_rgstr).1 = none →
        (spirit_register O id_u issuers pp t_rgstr).2 = t_rgstr)
    ∧ t_rgstr ⊆ (spirit_register O id_u issuers pp t_rgstr).2
    ∧ t_rgstr.card ≤ (spirit_register O id_u issuers pp t_rgstr).2.card
    ∧ (spirit_register O id_u issuers pp t_rgstr).2.card ≤ t_rgstr.card + 1 := by
  rcases spirit_register_shape O id_u issuers pp t_rgstr with h | ⟨tok, h⟩
  · rw [h]
    exact ⟨fun tok iu rg' hsome => by simp at hsome, fun _ => rfl,
      Finset.Subset.refl _, le_refl _, Nat.le_succ _⟩
  · rw [h]
    refine ⟨?_, ?_, Finset.subset_insert _ _,
      Finset.card_le_card (Finset.subset_insert _ _), Finset.card_insert_le _ _⟩
    · intro tok' iu rg' hsome
      simp only [Option.some.injEq, Prod.mk.injEq] at hsome
      obtain ⟨rfl, -, rfl⟩ := hsome
      exact ⟨rfl, rfl, fun hn => Finset.card_insert_of_not_mem hn,
        fun hm => Finset.insert_eq_self.mpr hm⟩
    · intro hnone
      simp at hnone

/-- C5 witness for `spirit_register_registry_effect`. -/
theorem spirit_register_registry_effect_witness :
    (spirit_register oAll 3 [10, 20] ⟨2⟩ ∅).1
      = some (((⟨3⟩, ⟨1⟩) : Token), 3, ({((⟨3⟩, ⟨1⟩) : Token)} : Finset Token))
    ∧ ({((⟨3⟩, ⟨1⟩) : Token)} : Finset Token) = insert ((⟨3⟩, ⟨1⟩) : Token) ∅ :=
  ⟨by decide,
    ((spirit_register_registry_effect oAll 3 [10, 20] ⟨2⟩ ∅).1 (⟨3⟩, ⟨1⟩) 3
      {((⟨3⟩, ⟨1⟩) : Token)} (by decide)).1⟩

/-- C6: the claim says the report packages a proof over, and discloses, the
entire set of recomputed pseudonyms.  The code computes the full pseudonym
set (here `{prf 100 0, prf 100 1} = {100, 101}`, two elements) but never
uses it: the proof and the report carry one single `ElID` — and that `ElID`
is a variable the function never binds (the source does not name-resolve),
modelled as the extra input `42` below.  At the failing input
`cp = {0, 1}` the report returned discloses the single pseudonym `42`, not
the two-element recomputed set. -/
theorem spirit_diagnosis_single_elid :
    spirit_diagnosis opsId pZkTrue (tok0, 9) 100 {0, 1} 42 = some ((tok0, 9), 0, 42)
    ∧ (({0, 1} : Finset ℕ).image (prf opsId 100)).card = 2 := by
  decide

/-- C7 counterexample: the claim says re-broadcasting an epoch leaves the
existing salt unchanged.  The table is a `HashMap` and `insert` replaces the
binding: below the entry for the epoch-3 pseudonym holds salt `0`, and after
re-broadcasting epoch 3 with fresh salt `1` it holds salt `1`. -/
theorem spirit_broadcast_overwrites_cex :
    ((∅ : ExposureTable).insert (prf opsId 0 3) 0).lookup (prf opsId 0 3) = some 0
    ∧ (spirit_broadcast opsId 3 0 1
        ((∅ : ExposureTable).insert (prf opsId 0 3) 0)).lookup (prf opsId 0 3) = some 1 := by
  constructor
  · exact Finmap.lookup_insert _
  · simp [spirit_broadcast, Finmap.lookup_insert]

/-- C7 amended: `spirit_broadcast` for epoch `i` binds the pseudonym
`prf prv i` to the freshly sampled salt — replacing any existing salt for
that epoch's pseudonym — and leaves every other entry of the exposure table
unchanged. -/
theorem spirit_broadcast_insert_salt (ops : GroupOps) (i : ℕ) (prv es_i : Scalar)
    (t_el : ExposureTable) (e : ElID) (he : e ≠ prf ops prv i) :
    (spirit_broadcast ops i prv es_i t_el).lookup (prf ops prv i) = some es_i
    ∧ (spirit_broadcast ops i prv es_i t_el).lookup e = t_el.lookup e := by
  constructor
  · simp [spirit_broadcast, Finmap.lookup_insert]
  · simp [spirit_broadcast, Finmap.lookup_insert_of_ne _ he]

/-- C7 witness for `spirit_broadcast_insert_salt`. -/
theorem spirit_broadcast_insert_salt_witness :
    (99 : ElID) ≠ prf opsId 0 3
    ∧ (spirit_broadcast opsId 3 0 1 ∅).lookup (prf opsId 0 3) = some 1
    ∧ (spirit_broadcast opsId 3 0 1 ∅).lookup 99 = (∅ : ExposureTable).lookup 99 :=
  ⟨by decide, (spirit_broadcast_insert_salt opsId 3 0 1 ∅ 99 (by decide)).1,
    (spirit_broadcast_insert_salt opsId 3 0 1 ∅ 99 (by decide)).2⟩

/-- C8: `spirit_trace` returns the cardinality of the intersection of the
confirmed set with the key set of the exposure table, alarms exactly when
that count reaches the exposure limit, and with limit `0` always alarms.
The embedding is a pure function of its inputs, which it does not modify. -/
theorem spirit_trace_spec (cf : Finset ElID) (t_el : ExposureTable)
    (exposure_limit : ℕ) :
    (spirit_trace cf t_el exposure_limit).1 = (cf ∩ t_el.keys).card
    ∧ (spirit_trace cf t_el exposure_limit).2
        = decide (exposure_limit ≤ (spirit_trace cf t_el exposure_limit).1)
    ∧ (spirit_trace cf t_el 0).2 = true := by
  have hset : cf.filter (fun el_id => el_id ∈ t_el) = cf ∩ t_el.keys := by
    ext e
    simp [Finmap.mem_keys]
  exact ⟨by simp only [spirit_trace, hset], rfl, by simp [spirit_trace]⟩

/-- C9: the PRF is deterministic — its value depends only on the key and
the epoch index, so equal inputs give the identical pseudonym. -/
theorem prf_deterministic (ops : GroupOps) (k₁ k₂ : Scalar) (i₁ i₂ : ℕ)
    (hk : k₁ = k₂) (hi : i₁ = i₂) : prf ops k₁ i₁ = prf ops k₂ i₂ := by
  rw [hk, hi]

/-- C9 witness for `prf_deterministic`. -/
theorem prf_deterministic_witness :
    (100 : Scalar) = 100 ∧ (3 : ℕ) = 3 ∧ prf opsId 100 3 = prf opsId 100 3 :=
  ⟨rfl, rfl, prf_deterministic opsId 100 100 3 3 rfl rfl⟩

/-- C10: the accept bit of `spirit_verify` is independent of the disclosed
ElID (and of the identity scalar): two reports with the same token and the
same proof receive the same accept bit whatever pseudonyms they disclose,
so acceptance never binds the pseudonym to the credential. -/
theorem spirit_verify_accept_independent_of_elid (P : Proof2PKOps) (token : Token)
    (iu₁ iu₂ pi_r : Scalar) (e₁ e₂ : ElID) (t_rgstr : Finset Token) (cp : Finset ElID) :
    (spirit_verify P ((token, iu₁), pi_r, e₁) t_rgstr cp).2
      = (spirit_verify P ((token, iu₂), pi_r, e₂) t_rgstr cp).2 := rfl
